import Mathlib

/-!
Shallow embedding of the moto CloudWatch backend (`src/moto/cloudwatch/models.py`)
and the EC2 VPN-gateway backend (`src/moto/ec2/models/vpn_gateway.py`).

Modelling conventions:
* Python `datetime` timestamps are modelled as integers (seconds); only order
  and arithmetic on timestamps matter to the verified code paths.
* Python floats are modelled as rationals (`Rat`); every value manipulated by
  the claims is exactly representable, so no rounding behaviour is lost.
* Python `dict`s (insertion-ordered, unique keys) are modelled as association
  lists with the helpers `lookupD`, `dictInsert`, `eraseKey` below, which
  mirror `d[k]`, `d[k] = v` (replace in place or append) and `del d[k]`.
* Python exceptions (`RESTError`, EC2 errors) are modelled by explicit error
  values; functions that can raise return the error together with the
  unmodified state, mirroring the fact that in the source every `raise`
  happens before any mutation of backend state.
* `json.loads` is an external library call; its success predicate is passed in
  as a parameter `jsonOk : String → Bool` (true iff `json.loads` would accept
  the string without raising `ValueError`).
-/

namespace Moto

/-- Key lookup in an association list, mirroring Python `d.get(k)` /
`k in d` on an insertion-ordered dict. -/
def lookupD {κ α : Type} [DecidableEq κ] (k : κ) : List (κ × α) → Option α
  | [] => none
  | (k0, v) :: rest => if k0 = k then some v else lookupD k rest

/-- Dict assignment `d[k] = v`: replaces the value in place if the key is
present, otherwise appends the binding at the end, as Python dicts do. -/
def dictInsert {κ α : Type} [DecidableEq κ] (k : κ) (v : α) : List (κ × α) → List (κ × α)
  | [] => [(k, v)]
  | (k0, v0) :: rest => if k0 = k then (k, v) :: rest else (k0, v0) :: dictInsert k v rest

/-- Dict deletion `del d[k]`: removes the (unique) binding for `k`. -/
def eraseKey {κ α : Type} [DecidableEq κ] (k : κ) : List (κ × α) → List (κ × α)
  | [] => []
  | (k0, v0) :: rest => if k0 = k then rest else (k0, v0) :: eraseKey k rest

/-- Python `s.startswith(pre)`, via the underlying character lists. -/
def strStarts (s pre : String) : Bool := pre.data.isPrefixOf s.data

/-- The `Dimension` value type (`models.py` lines 20-31): a metric tag
consisting of a name and a value. -/
structure Dimension where
  name : String
  value : String
deriving DecidableEq, Repr

/-- `Dimension.__eq__` restricted to `Dimension` arguments (the
`isinstance` guard holds): equality of both fields. -/
def dimensionEq (a b : Dimension) : Bool := a.name == b.name && a.value == b.value

/-- `Dimension.__ne__` (`models.py` line 30-31) is literally
`return self != item`, which re-invokes `__ne__` on the same arguments.
We model the recursion with explicit fuel standing for the Python call
stack: `none` is the `RecursionError` raised when the stack is exhausted.
The body of the method performs no computation besides the recursive call,
so each step just decrements the fuel. -/
def dimensionNeFuel : Nat → Dimension → Dimension → Option Bool
  | 0, _, _ => none
  | n + 1, a, b => dimensionNeFuel n a b

/-- Alarm registry / CloudWatch errors surfaced by `RESTError` in the source. -/
inductive CWErr where
  | ResourceNotFound
  | InvalidFormat
  | InvalidParameterValue
  | PaginationException
deriving DecidableEq, Repr

/-- A stored metric data point (`MetricDatum.__init__`, `models.py` lines
125-133). The timestamp-defaulting branch (`or datetime.utcnow()`) is resolved
by the caller `put_metric_data`; stored points always carry a timestamp. -/
structure MetricDatum where
  nspace : String
  name : String
  value : Rat
  timestamp : Int
  dimensions : List Dimension
deriving DecidableEq, Repr

/-- `MetricDatum.filter` (`models.py` lines 135-144): a point passes iff every
supplied criterion matches. Falsy filter arguments (`None`, `""`, `[]`) impose
no constraint and are modelled as `none` / the empty list. The dimension
filter uses Python `in`, i.e. `Dimension.__eq__`, which is structural
equality on both fields. -/
def MetricDatum.filter (md : MetricDatum) (ns nm : Option String)
    (dims : List Dimension) : Bool :=
  (match ns with
   | none => true
   | some n => n == md.nspace) &&
  (match nm with
   | none => true
   | some n => n == md.name) &&
  (dims.isEmpty || dims.all (fun d => md.dimensions.contains d))

/-- One output window of `get_metric_statistics` (`Statistics.__init__`,
`models.py` lines 170-174). `timestamp` keeps the window-start instant
(the ISO-8601 formatting applied in the source is serialization of the
same instant and is not modelled). -/
structure Statistics where
  timestamp : Int
  values : List Rat
  stats : List String
deriving DecidableEq, Repr

/-- `Statistics.sample_count` (`models.py` lines 176-181): absent unless
requested, else the number of collected values. -/
def Statistics.sample_count (s : Statistics) : Option Nat :=
  if "SampleCount" ∈ s.stats then some s.values.length else none

/-- `Statistics.unit` (`models.py` lines 183-185): always absent. -/
def Statistics.unit (_s : Statistics) : Option String := none

/-- `Statistics.sum` (`models.py` lines 187-192): absent unless requested,
else the sum of the collected values. -/
def Statistics.sum (s : Statistics) : Option Rat :=
  if "Sum" ∈ s.stats then some s.values.sum else none

/-- `Statistics.minimum` (`models.py` lines 194-199): absent unless requested,
else Python `min` of the values. (`min` of an empty list raises in Python;
that case is modelled as `none` and is unreachable for emitted windows, which
are never empty.) -/
def Statistics.minimum (s : Statistics) : Option Rat :=
  if "Minimum" ∈ s.stats then
    match s.values with
    | [] => none
    | v :: vs => some (vs.foldl min v)
  else none

/-- `Statistics.maximum` (`models.py` lines 201-206): absent unless requested,
else Python `max` of the values (empty case as in `minimum`). -/
def Statistics.maximum (s : Statistics) : Option Rat :=
  if "Maximum" ∈ s.stats then
    match s.values with
    | [] => none
    | v :: vs => some (vs.foldl max v)
  else none

/-- `Statistics.average` (`models.py` lines 208-214): absent unless requested,
else `sum(values)/len(values)`. (Division by zero raises in Python; with
`Rat` it yields `0`, again unreachable for emitted windows.) -/
def Statistics.average (s : Statistics) : Option Rat :=
  if "Average" ∈ s.stats then some (s.values.sum / s.values.length) else none

/-- Configuration parameters of `put_metric_alarm` / `FakeAlarm.__init__`
(`models.py` lines 62-98), bundled. Dimensions arrive as a list of
name/value pairs (the wire dicts) that the constructor turns into
`Dimension` objects. -/
structure AlarmParams where
  name : String
  nspace : String
  metric_name : String
  comparison_operator : String
  evaluation_periods : Int
  period : Int
  threshold : Rat
  statistic : String
  description : String
  dimensions : List (String × String)
  alarm_actions : List String
  ok_actions : List String
  insufficient_data_actions : List String
  unit : String
  actions_enabled : Bool
deriving DecidableEq, Repr

/-- A history record appended by `FakeAlarm.update_state` (`models.py` lines
109-117): the tag `"StateUpdate"` followed by the previous reason,
reason-data, state value and state-update timestamp. -/
structure HistoryItem where
  tag : String
  reason : String
  reason_data : Option String
  state_value : String
  timestamp : Int
deriving DecidableEq, Repr

/-- The alarm object (`FakeAlarm`, `models.py` lines 62-122). -/
structure FakeAlarm where
  name : String
  nspace : String
  metric_name : String
  comparison_operator : String
  evaluation_periods : Int
  period : Int
  threshold : Rat
  statistic : String
  description : String
  dimensions : List Dimension
  actions_enabled : Bool
  alarm_actions : List String
  ok_actions : List String
  insufficient_data_actions : List String
  unit : String
  configuration_updated_timestamp : Int
  history : List HistoryItem
  state_reason : String
  state_reason_data : Option String
  state_value : String
  state_updated_timestamp : Int
deriving DecidableEq, Repr

/-- `FakeAlarm.__init__` (`models.py` lines 62-105): copies the configuration
parameters, converts the dimension dicts to `Dimension` values, stamps the
current time, and initialises empty history and `OK` state. `now` is the
value `datetime.utcnow()` at construction time. -/
def mkFakeAlarm (p : AlarmParams) (now : Int) : FakeAlarm where
  name := p.name
  nspace := p.nspace
  metric_name := p.metric_name
  comparison_operator := p.comparison_operator
  evaluation_periods := p.evaluation_periods
  period := p.period
  threshold := p.threshold
  statistic := p.statistic
  description := p.description
  dimensions := p.dimensions.map (fun d => Dimension.mk d.1 d.2)
  actions_enabled := p.actions_enabled
  alarm_actions := p.alarm_actions
  ok_actions := p.ok_actions
  insufficient_data_actions := p.insufficient_data_actions
  unit := p.unit
  configuration_updated_timestamp := now
  history := []
  state_reason := ""
  state_reason_data := some "\x7b\x7d"
  state_value := "OK"
  state_updated_timestamp := now

/-- `FakeAlarm.update_state` (`models.py` lines 107-122): appends the
previous state tuple to history tagged `StateUpdate`, then overwrites the
current state fields, stamping `state_updated_timestamp` with `now`. -/
def FakeAlarm.update_state (a : FakeAlarm) (reason : String)
    (reason_data : Option String) (state_value : String) (now : Int) : FakeAlarm :=
  { a with
    history := a.history ++
      [⟨"StateUpdate", a.state_reason, a.state_reason_data, a.state_value,
        a.state_updated_timestamp⟩]
    state_reason := reason
    state_reason_data := reason_data
    state_value := state_value
    state_updated_timestamp := now }

/-- The alarm registry: `self.alarms`, a Python dict keyed by alarm name. -/
abbrev AlarmMap : Type := List (String × FakeAlarm)

/-- `CloudWatchBackend.put_metric_alarm` (`models.py` lines 233-269):
constructs a fresh `FakeAlarm` and stores it under its name
(`self.alarms[name] = alarm`), replacing any prior alarm of that name. -/
def put_metric_alarm (alarms : AlarmMap) (p : AlarmParams) (now : Int) : AlarmMap :=
  dictInsert p.name (mkFakeAlarm p now) alarms

/-- `CloudWatchBackend.get_alarms_by_alarm_names` (`models.py` lines
298-299): the alarms, in registry order, whose `name` is among the
requested names. -/
def get_alarms_by_alarm_names (alarms : AlarmMap) (names : List String) :
    List FakeAlarm :=
  (alarms.map Prod.snd).filter (fun a => names.contains a.name)

/-- `CloudWatchBackend.set_alarm_state` (`models.py` lines 397-415).
The source first runs `json.loads(reason_data)` when `reason_data` is not
`None` (raising `InvalidFormat` on failure), then checks that the name is a
key of `self.alarms` (raising `ResourceNotFound`), then checks the state
value (raising `InvalidParameterValue`), and only then mutates the alarm.
Errors are returned together with the registry, which every error path
leaves untouched. `jsonOk` is the success predicate of the external
`json.loads`. -/
def set_alarm_state (jsonOk : String → Bool) (alarms : AlarmMap)
    (alarm_name reason : String) (reason_data : Option String)
    (state_value : String) (now : Int) : Option CWErr × AlarmMap :=
  if (match reason_data with
      | some rd => !(jsonOk rd)
      | none => false) then
    (some CWErr.InvalidFormat, alarms)
  else if lookupD alarm_name alarms = none then
    (some CWErr.ResourceNotFound, alarms)
  else if state_value ∉ ["OK", "ALARM", "INSUFFICIENT_DATA"] then
    (some CWErr.InvalidParameterValue, alarms)
  else
    (none,
     match lookupD alarm_name alarms with
     | none => alarms
     | some a =>
       dictInsert alarm_name (a.update_state reason reason_data state_value now) alarms)

/-- A dashboard (`Dashboard.__init__`, `models.py` lines 147-153). The ARN
is built by the external `make_arn_for_dashboard` helper and stored opaquely. -/
structure Dashboard where
  name : String
  body : String
  arn : String
  last_modified : Int
deriving DecidableEq, Repr

/-- `CloudWatchBackend.delete_dashboards` (`models.py` lines 375-392):
computes the set of requested names missing from the registry; if non-empty,
returns failure reporting exactly those names and deletes nothing; otherwise
deletes every requested name and succeeds. The Python error message embeds
the missing-name set (unspecified iteration order); we return the missing
names as a deduplicated list in first-occurrence order. The result is
(new registry, success flag, reported missing names). -/
def delete_dashboards (dashboards : List (String × Dashboard))
    (names : List String) : List (String × Dashboard) × Bool × Option (List String) :=
  let left_over := (names.filter (fun n => !((dashboards.map Prod.fst).contains n))).dedup
  if left_over.isEmpty then
    (dashboards.filter (fun kv => !(names.contains kv.1)), true, none)
  else
    (dashboards, false, some left_over)

/-- The `daterange` generator (`models.py` lines 34-59) in the only form the
backend uses it: positive `step` and the default `inclusive=False`, i.e.
`while start < stop: yield start; start += step`. (The backward-iteration
branch and the `inclusive` flag are dead code for `get_metric_statistics`,
which always passes a positive `timedelta` step.) -/
def daterange (start stop step : Int) : List Int :=
  if _h : 0 < step ∧ start < stop then start :: daterange (start + step) stop step
  else []
termination_by (stop - start).toNat
decreasing_by omega

/-- Timestamp order on metric points: the sort key `lambda x: x.timestamp`
of `models.py` line 339. -/
def tsLE (a b : MetricDatum) : Prop := a.timestamp ≤ b.timestamp

instance : DecidableRel tsLE := fun a b =>
  inferInstanceAs (Decidable (a.timestamp ≤ b.timestamp))

instance : IsTotal MetricDatum tsLE := ⟨fun a b => Int.le_total a.timestamp b.timestamp⟩

instance : IsTrans MetricDatum tsLE := ⟨fun _ _ _ hab hbc => le_trans hab hbc⟩

/-- The filtering step of `get_metric_statistics` (`models.py` lines
330-336): stored points whose namespace and name match and whose timestamp
lies in `[start_time, end_time]`, inclusive at both ends. -/
def matchingData (data : List MetricDatum) (ns nm : String)
    (start_time end_time : Int) : List MetricDatum :=
  data.filter (fun md =>
    md.nspace == ns && md.name == nm &&
    decide (start_time ≤ md.timestamp) && decide (md.timestamp ≤ end_time))

/-- The sorting step of `get_metric_statistics` (`models.py` line 339):
`sorted(filtered_data, key=lambda x: x.timestamp)`. Python's `sorted` is a
stable sort by the key; insertion sort on the timestamp order is one. -/
def sortedMatching (data : List MetricDatum) (ns nm : String)
    (start_time end_time : Int) : List MetricDatum :=
  (matchingData data ns nm start_time end_time).insertionSort tsLE

/-- The window loop of `get_metric_statistics` (`models.py` lines 343-362):
for each window start `dt`, consume from the sorted point list the leading
points with `timestamp < dt + period` (the `while idx < len(...)` loop over
the shared index `idx`), emit a `Statistics` window unless no point was
assigned, and continue with the remaining points. -/
def collectWindows (dts : List Int) (pts : List MetricDatum) (period : Int)
    (stats : List String) : List Statistics :=
  match dts with
  | [] => []
  | dt :: rest =>
    let taken := pts.takeWhile (fun md => md.timestamp < dt + period)
    let remaining := pts.dropWhile (fun md => md.timestamp < dt + period)
    if taken.isEmpty then collectWindows rest remaining period stats
    else ⟨dt, taken.map MetricDatum.value, stats⟩ :: collectWindows rest remaining period stats

/-- `CloudWatchBackend.get_metric_statistics` (`models.py` lines 326-362):
filter, sort, return `[]` when nothing matches, otherwise walk the windows
`daterange(first.timestamp, last.timestamp + period, period)` collecting
non-empty windows. -/
def get_metric_statistics (data : List MetricDatum) (ns nm : String)
    (start_time end_time period : Int) (stats : List String) : List Statistics :=
  match sortedMatching data ns nm start_time end_time with
  | [] => []
  | first :: rest =>
    collectWindows
      (daterange first.timestamp
        ((((first :: rest).getLast?).getD first).timestamp + period) period)
      (first :: rest) period stats

/-- The mutable pagination-relevant state of a `CloudWatchBackend`
(`models.py` lines 217-222): the stored points, the outstanding
continuation tokens with their remainders, and a freshness counter modelling
`uuid4()` (uuid generation is an external source of fresh identifiers; we
draw tokens from a counter, so a fresh token never collides with an
outstanding one). -/
structure CWState where
  metric_data : List MetricDatum
  paged_metric_data : List (Nat × List MetricDatum)
  next_token : Nat
deriving DecidableEq, Repr

/-- `CloudWatchBackend.aws_metric_data` (`models.py` lines 224-231): points
synthesized by registered metric providers. In this source `metric_providers`
is the empty dict (line 481) and nothing in the repository registers a
provider, so the property yields no points. -/
def aws_metric_data : List MetricDatum := []

/-- `CloudWatchBackend.get_all_metrics` (`models.py` lines 364-365). -/
def get_all_metrics (st : CWState) : List MetricDatum :=
  st.metric_data ++ aws_metric_data

/-- `CloudWatchBackend.get_filtered_metrics` (`models.py` lines 431-438). -/
def get_filtered_metrics (st : CWState) (metric_name namespace_f : Option String)
    (dims : List Dimension) : List MetricDatum :=
  (get_all_metrics st).filter (fun md => md.filter namespace_f metric_name dims)

/-- `CloudWatchBackend._get_paginated` (`models.py` lines 440-446): if more
than 500 items remain, generate a fresh token, map it to the items beyond the
first 500, and return the first 500 with the token; otherwise return
everything with no token. -/
def get_paginated (st : CWState) (metrics : List MetricDatum) :
    CWState × Option Nat × List MetricDatum :=
  if 500 < metrics.length then
    let t := st.next_token
    ({ st with
        paged_metric_data := dictInsert t (metrics.drop 500) st.paged_metric_data
        next_token := t + 1 },
     some t, metrics.take 500)
  else (st, none, metrics)

/-- `CloudWatchBackend.list_metrics` (`models.py` lines 417-429): with a
token, fail `PaginationException` when it is unknown, otherwise consume it
(single use) and re-paginate its remainder; with no token, paginate the
filtered metrics. -/
def list_metrics (st : CWState) (next_token : Option Nat)
    (namespace_f metric_name : Option String) (dims : List Dimension) :
    Except CWErr (CWState × Option Nat × List MetricDatum) :=
  match next_token with
  | some t =>
    match lookupD t st.paged_metric_data with
    | none => Except.error CWErr.PaginationException
    | some metrics =>
      Except.ok
        (get_paginated { st with paged_metric_data := eraseKey t st.paged_metric_data }
          metrics)
  | none => Except.ok (get_paginated st (get_filtered_metrics st metric_name namespace_f dims))

/-- EC2 VPN-gateway errors (`vpn_gateway.py`): `InvalidVpnGatewayIdError`,
the external `get_vpc` failure for an unknown VPC, and
`InvalidVpnGatewayAttachmentError`. -/
inductive Ec2Err where
  | InvalidVpnGatewayId
  | VpcNotFound
  | InvalidVpnGatewayAttachment
deriving DecidableEq, Repr

/-- `VPCGatewayAttachment.__init__` (`vpn_gateway.py` lines 8-15). -/
structure VPCGatewayAttachment where
  vpc_id : String
  gateway_id : Option String
  state : Option String
deriving DecidableEq, Repr

/-- `VpnGateway.__init__` (`vpn_gateway.py` lines 52-71). The backend
back-reference and the tag mixin are outside the claims and omitted. -/
structure VpnGateway where
  id : String
  gw_type : String
  amazon_side_asn : Option Int
  availability_zone : Option String
  state : String
  attachments : List (String × VPCGatewayAttachment)
deriving DecidableEq, Repr

/-- The attachment object constructed by `attach_vpn_gateway`:
`VPCGatewayAttachment(vpc_id, state="attached")`. -/
def attachedEntry (vpc_id : String) : VPCGatewayAttachment :=
  ⟨vpc_id, none, some "attached"⟩

/-- The loop of `attach_vpn_gateway` that pops every attachment entry whose
key starts with `"vpc-"`. -/
def dropVpcKeys (l : List (String × VPCGatewayAttachment)) :
    List (String × VPCGatewayAttachment) :=
  l.filter (fun kv => !(strStarts kv.1 "vpc-"))

/-- Replace a gateway's attachment map. -/
def VpnGateway.withAttachments (g : VpnGateway)
    (atts : List (String × VPCGatewayAttachment)) : VpnGateway :=
  { g with attachments := atts }

/-- `VpnGatewayBackend.attach_vpn_gateway` (`vpn_gateway.py` lines 141-149):
look up the gateway (`InvalidVpnGatewayId` if absent), validate the VPC via
the external `get_vpc` collaborator (modelled by `vpcExists`), then drop
every attachment entry whose key starts with `"vpc-"` and insert a fresh
`attached` entry under `vpc_id`. -/
def attach_vpn_gateway (vpcExists : String → Bool)
    (gws : List (String × VpnGateway)) (gid vpc_id : String) :
    Except Ec2Err (List (String × VpnGateway) × VPCGatewayAttachment) :=
  match lookupD gid gws with
  | none => Except.error Ec2Err.InvalidVpnGatewayId
  | some g =>
    if !(vpcExists vpc_id) then Except.error Ec2Err.VpcNotFound
    else
      let att := attachedEntry vpc_id
      let cleaned := dropVpcKeys g.attachments
      Except.ok
        (dictInsert gid (g.withAttachments (dictInsert vpc_id att cleaned)) gws, att)

/-- `VpnGatewayBackend.detach_vpn_gateway` (`vpn_gateway.py` lines 158-164):
look up the gateway, then the attachment for `vpc_id`
(`InvalidVpnGatewayAttachment` if absent), and mark it `detached` in place —
the entry is not removed from the map. -/
def detach_vpn_gateway (gws : List (String × VpnGateway)) (gid vpc_id : String) :
    Except Ec2Err (List (String × VpnGateway) × VPCGatewayAttachment) :=
  match lookupD gid gws with
  | none => Except.error Ec2Err.InvalidVpnGatewayId
  | some g =>
    match lookupD vpc_id g.attachments with
    | none => Except.error Ec2Err.InvalidVpnGatewayAttachment
    | some att =>
      let att' := { att with state := some "detached" }
      Except.ok
        (dictInsert gid (g.withAttachments (dictInsert vpc_id att' g.attachments)) gws,
         att')

/-! Concrete fixtures used by witness and counterexample theorems. -/

/-- Four stored points at t = 0, 30, 70, 130 seconds, namespace `N`,
metric `M`, value `1.0` each (the scenario of the statistics example). -/
def exampleStatsData : List MetricDatum :=
  [⟨"N", "M", 1, 0, []⟩, ⟨"N", "M", 1, 30, []⟩, ⟨"N", "M", 1, 70, []⟩,
   ⟨"N", "M", 1, 130, []⟩]

/-- A single stored point, for small witness scenarios. -/
def onePointData : List MetricDatum := [⟨"N", "M", 1, 0, []⟩]

/-- A concrete dashboard named `a`. -/
def dashA : Dashboard := ⟨"a", "body", "arn-a", 0⟩

/-- Concrete alarm configuration used by witnesses. -/
def alarmParamsA : AlarmParams :=
  ⟨"a1", "ns", "m", "GreaterThanThreshold", 1, 60, 10, "Average", "d",
   [("dn", "dv")], ["act1"], [], [], "Count", true⟩

/-- A second configuration with the same alarm name, different settings. -/
def alarmParamsB : AlarmParams :=
  ⟨"a1", "ns2", "m2", "LessThanThreshold", 2, 120, 5, "Sum", "d2",
   [], [], [], [], "Count", false⟩

/-- A registry already holding alarm `a1` with accumulated history and a
non-OK state. -/
def priorRegistry : AlarmMap :=
  [("a1", (mkFakeAlarm alarmParamsA 0).update_state "why" none "ALARM" 5)]

/-- 1200 stored metric points, for the pagination witness. -/
def manyMetrics : List MetricDatum := List.replicate 1200 ⟨"N", "M", 1, 0, []⟩

/-! Theorems. -/

/-- C10: `Dimension.__ne__` never terminates. Its body immediately
re-invokes `__ne__` on the same arguments, so however much call-stack fuel is
available, the call consumes it all and ends in a `RecursionError` (`none`)
instead of returning the boolean negation of `Dimension.__eq__`. -/
theorem dimensionNeFuel_diverges (fuel : Nat) (a b : Dimension) :
    dimensionNeFuel fuel a b = none := by
  induction fuel with
  | zero => rfl
  | succ n ih => exact ih

/-- C3: with points stored at t = 0, 30, 70, 130 (namespace `N`, metric `M`,
value 1.0 each), `get_metric_statistics` over [0, 200] with period 60 and
requested statistics SampleCount and Sum yields exactly three windows, in
chronological order: start 0 with count 2 and sum 2.0, start 60 with count 1
and sum 1.0, and start 120 with count 1 and sum 1.0. -/
theorem get_metric_statistics_example :
    (get_metric_statistics exampleStatsData "N" "M" 0 200 60
        ["SampleCount", "Sum"]).map
      (fun s => (s.timestamp, s.sample_count, Statistics.sum s)) =
    [(0, some 2, some 2), (60, some 1, some 1), (120, some 1, some 1)] := by
  simp [get_metric_statistics, exampleStatsData, sortedMatching, matchingData,
    List.insertionSort, List.orderedInsert, tsLE, daterange, collectWindows,
    Statistics.sample_count, Statistics.sum, List.takeWhile, List.dropWhile]
  norm_num

/-- C1 (amended): `set_alarm_state` on an unknown alarm name fails
`ResourceNotFound` and leaves the registry unchanged whenever `reason_data`
is absent or well-formed JSON; the JSON check runs first, so malformed
`reason_data` instead fails `InvalidFormat` (also without mutating). -/
theorem set_alarm_state_unknown_name (jsonOk : String → Bool) (alarms : AlarmMap)
    (name reason : String) (rd : Option String) (sv : String) (now : Int)
    (hname : lookupD name alarms = none)
    (hjson : match rd with
             | none => True
             | some r => jsonOk r = true) :
    set_alarm_state jsonOk alarms name reason rd sv now =
      (some CWErr.ResourceNotFound, alarms) := by
  cases rd with
  | none => simp [set_alarm_state, hname]
  | some r => simp [set_alarm_state, hname, hjson]

/-- C1 witness: on the empty registry with well-formed `reason_data`, the
amended theorem yields `ResourceNotFound` with the registry untouched. -/
theorem set_alarm_state_unknown_name_witness :
    set_alarm_state (fun s => s == "\x7b\x7d") [] "alarm1" "r" (some "\x7b\x7d") "OK" 0 =
      (some CWErr.ResourceNotFound, []) :=
  set_alarm_state_unknown_name (fun s => s == "\x7b\x7d") [] "alarm1" "r"
    (some "\x7b\x7d") "OK" 0 rfl (by decide)

/-- C1 counterexample: with an unknown alarm name but malformed
`reason_data`, `set_alarm_state` fails `InvalidFormat`, not
`ResourceNotFound`, because the source validates the JSON payload before
looking the name up. -/
theorem set_alarm_state_unknown_name_cex :
    (set_alarm_state (fun s => s == "\x7b\x7d") [] "alarm1" "r" (some "not json")
        "OK" 0).1 = some CWErr.InvalidFormat ∧
    some CWErr.InvalidFormat ≠ some CWErr.ResourceNotFound := by
  constructor
  · decide
  · decide

/-- Every window emitted by the window loop carries the requested-statistics
list it was constructed with. -/
theorem collectWindows_stats_eq (dts : List Int) (pts : List MetricDatum)
    (period : Int) (stats : List String) :
    ∀ w ∈ collectWindows dts pts period stats, w.stats = stats := by
  induction dts generalizing pts with
  | nil => intro w hw; simp [collectWindows] at hw
  | cons dt rest ih =>
    intro w hw
    rw [collectWindows] at hw
    by_cases hempty : (pts.takeWhile (fun md => md.timestamp < dt + period)).isEmpty
    · rw [if_pos hempty] at hw
      exact ih _ w hw
    · rw [if_neg hempty] at hw
      rcases List.mem_cons.mp hw with heq | htail
      · subst heq; rfl
      · exact ih _ w htail

/-- Every window of a `get_metric_statistics` result carries the requested
statistics list. -/
theorem get_metric_statistics_stats_eq (data : List MetricDatum) (ns nm : String)
    (start_time end_time period : Int) (stats : List String) :
    ∀ w ∈ get_metric_statistics data ns nm start_time end_time period stats,
      w.stats = stats := by
  intro w hw
  rw [get_metric_statistics] at hw
  cases hs : sortedMatching data ns nm start_time end_time with
  | nil => rw [hs] at hw; simp at hw
  | cons first rest =>
    rw [hs] at hw
    exact collectWindows_stats_eq _ _ _ _ w hw

/-- C6: in every window of every `get_metric_statistics` result, each of
SampleCount, Sum, Minimum, Maximum and Average that was not requested is
reported as absent (`none`), and the unit is absent in every window. -/
theorem get_metric_statistics_absent_stats (data : List MetricDatum) (ns nm : String)
    (start_time end_time period : Int) (stats : List String) :
    ∀ w ∈ get_metric_statistics data ns nm start_time end_time period stats,
      ("SampleCount" ∉ stats → w.sample_count = none) ∧
      ("Sum" ∉ stats → Statistics.sum w = none) ∧
      ("Minimum" ∉ stats → w.minimum = none) ∧
      ("Maximum" ∉ stats → w.maximum = none) ∧
      ("Average" ∉ stats → w.average = none) ∧
      w.unit = none := by
  intro w hw
  have hst : w.stats = stats :=
    get_metric_statistics_stats_eq data ns nm start_time end_time period stats w hw
  refine ⟨fun h => ?_, fun h => ?_, fun h => ?_, fun h => ?_, fun h => ?_, rfl⟩
  · simp [Statistics.sample_count, hst, h]
  · simp [Statistics.sum, hst, h]
  · simp [Statistics.minimum, hst, h]
  · simp [Statistics.maximum, hst, h]
  · simp [Statistics.average, hst, h]

/-- C6 witness: a concrete call requesting only SampleCount produces a window
in which Sum, Minimum, Maximum, Average and the unit are all absent. -/
theorem get_metric_statistics_absent_stats_witness :
    Statistics.sum ⟨0, [1], ["SampleCount"]⟩ = none ∧
    Statistics.minimum ⟨0, [1], ["SampleCount"]⟩ = none ∧
    Statistics.maximum ⟨0, [1], ["SampleCount"]⟩ = none ∧
    Statistics.average ⟨0, [1], ["SampleCount"]⟩ = none ∧
    Statistics.unit ⟨0, [1], ["SampleCount"]⟩ = none := by
  have hmem : (⟨0, [1], ["SampleCount"]⟩ : Statistics) ∈
      get_metric_statistics onePointData "N" "M" 0 100 60 ["SampleCount"] := by
    simp [get_metric_statistics, onePointData, sortedMatching, matchingData,
      List.insertionSort, List.orderedInsert, tsLE, daterange, collectWindows,
      List.takeWhile]
  have h := get_metric_statistics_absent_stats onePointData "N" "M" 0 100 60
    ["SampleCount"] _ hmem
  exact ⟨h.2.1 (by decide), h.2.2.1 (by decide), h.2.2.2.1 (by decide),
    h.2.2.2.2.1 (by decide), h.2.2.2.2.2⟩

/-- C5: `delete_dashboards` is all-or-nothing. When every requested name
exists it deletes exactly the requested dashboards and succeeds; when at
least one requested name is missing, the registry is returned unchanged, the
operation fails, and the reported missing names are exactly the requested
names absent from the registry. -/
theorem delete_dashboards_all_or_nothing (m : List (String × Dashboard))
    (names : List String) :
    ((∀ n ∈ names, n ∈ m.map Prod.fst) →
      delete_dashboards m names =
        (m.filter (fun kv => !(names.contains kv.1)), true, none) ∧
      (∀ kv, kv ∈ (delete_dashboards m names).1 ↔ kv ∈ m ∧ kv.1 ∉ names)) ∧
    ((∃ n ∈ names, n ∉ m.map Prod.fst) →
      (delete_dashboards m names).1 = m ∧
      (delete_dashboards m names).2.1 = false ∧
      ∃ missing, (delete_dashboards m names).2.2 = some missing ∧
        ∀ n, n ∈ missing ↔ n ∈ names ∧ n ∉ m.map Prod.fst) := by
  constructor
  · intro hall
    have hempty :
        (names.filter (fun n => !((m.map Prod.fst).contains n))).dedup = [] := by
      rw [List.dedup_eq_nil, List.filter_eq_nil_iff]
      intro n hn
      simpa using hall n hn
    have heq : delete_dashboards m names =
        (m.filter (fun kv => !(names.contains kv.1)), true, none) := by
      rw [delete_dashboards, hempty]
      rfl
    refine ⟨heq, fun kv => ?_⟩
    rw [heq]
    simp [List.mem_filter]
  · rintro ⟨n, hn, hmiss⟩
    have hne : (names.filter (fun n => !((m.map Prod.fst).contains n))).dedup ≠ [] := by
      rw [Ne, List.dedup_eq_nil, List.eq_nil_iff_forall_not_mem]
      push_neg
      exact ⟨n, List.mem_filter.mpr ⟨hn, by simpa [List.elem_eq_mem] using hmiss⟩⟩
    have hfalse :
        ((names.filter (fun n => !((m.map Prod.fst).contains n))).dedup).isEmpty = false := by
      simpa [List.isEmpty_iff] using hne
    rw [delete_dashboards, hfalse]
    refine ⟨rfl, rfl,
      (names.filter (fun n => !((m.map Prod.fst).contains n))).dedup, rfl, fun x => ?_⟩
    simp [List.mem_dedup, List.mem_filter]

/-- C5 witness: with only dashboard `a` present, requesting deletion of
`a` and `missing` deletes nothing, keeps `a`, fails and reports exactly
`missing`; requesting just `a` deletes it and succeeds. -/
theorem delete_dashboards_all_or_nothing_witness :
    (delete_dashboards [("a", dashA)] ["a", "missing"]).1 = [("a", dashA)] ∧
    (delete_dashboards [("a", dashA)] ["a", "missing"]).2.1 = false ∧
    (∃ missing, (delete_dashboards [("a", dashA)] ["a", "missing"]).2.2 = some missing ∧
      ∀ n, n ∈ missing ↔ n ∈ ["a", "missing"] ∧ n ∉ [("a", dashA)].map Prod.fst) ∧
    delete_dashboards [("a", dashA)] ["a"] =
      ([("a", dashA)].filter (fun kv => !(["a"].contains kv.1)), true, none) := by
  have h2 := (delete_dashboards_all_or_nothing [("a", dashA)] ["a", "missing"]).2
    ⟨"missing", by decide, by decide⟩
  have h1 := ((delete_dashboards_all_or_nothing [("a", dashA)] ["a"]).1
    (by decide)).1
  exact ⟨h2.1, h2.2.1, h2.2.2, h1⟩

/-- Entries whose alarm name differs from `k` are all dropped by a
by-names filter for `[k]`. -/
theorem filter_names_nil (l : List (String × FakeAlarm)) (k : String)
    (hne : ∀ kv ∈ l, kv.2.name ≠ k) :
    (l.map Prod.snd).filter (fun a => [k].contains a.name) = [] := by
  rw [List.filter_eq_nil_iff]
  intro a ha
  rcases List.mem_map.mp ha with ⟨kv, hkv, hsnd⟩
  simp [hsnd ▸ hne kv hkv]

/-- After a dict insert of an alarm under its own name into a well-formed
registry, filtering the registry values by that single name yields exactly
the inserted alarm. -/
theorem get_after_insert (m : AlarmMap) (k : String) (A : FakeAlarm)
    (hA : A.name = k) (hkeys : ∀ kv ∈ m, kv.2.name = kv.1)
    (hnd : (m.map Prod.fst).Nodup) :
    ((dictInsert k A m).map Prod.snd).filter (fun a => [k].contains a.name) = [A] := by
  induction m with
  | nil => simp [dictInsert, hA]
  | cons kv rest ih =>
    obtain ⟨k0, v0⟩ := kv
    by_cases hk : k0 = k
    · subst hk
      rw [dictInsert, if_pos rfl]
      have hrest : ∀ kv ∈ rest, kv.2.name ≠ k0 := by
        intro kv hkv
        rw [hkeys kv (List.mem_cons_of_mem _ hkv)]
        intro hcontra
        have : k0 ∈ rest.map Prod.fst := hcontra ▸ List.mem_map_of_mem Prod.fst hkv
        exact (List.nodup_cons.mp hnd).1 this
      simp only [List.map_cons, List.filter_cons]
      rw [filter_names_nil rest k0 hrest]
      simp [hA]
    · rw [dictInsert, if_neg hk]
      simp only [List.map_cons, List.filter_cons]
      have hv0 : v0.name = k0 := hkeys (k0, v0) (List.mem_cons_self _ _)
      have : ([k].contains v0.name) = false := by
        simp [hv0, hk]
      rw [this]
      exact ih (fun kv hkv => hkeys kv (List.mem_cons_of_mem _ hkv))
        (List.nodup_cons.mp hnd).2

/-- C7: for every well-formed prior registry (keys are distinct and each
alarm is stored under its own name, as Python dicts and `put_metric_alarm`
guarantee), `put_metric_alarm` followed immediately by
`get_alarms_by_alarm_names` on the new alarm's name returns exactly one
alarm — the freshly constructed one — whose configuration fields equal the
request, with state `OK`, empty state reason, state-reason data `"{}"` and
empty history, even when an alarm of the same name already existed. -/
theorem put_then_get_by_names (m : AlarmMap) (p : AlarmParams) (now : Int)
    (hnd : (m.map Prod.fst).Nodup) (hkeys : ∀ kv ∈ m, kv.2.name = kv.1) :
    get_alarms_by_alarm_names (put_metric_alarm m p now) [p.name] =
      [mkFakeAlarm p now] ∧
    (mkFakeAlarm p now).name = p.name ∧
    (mkFakeAlarm p now).nspace = p.nspace ∧
    (mkFakeAlarm p now).metric_name = p.metric_name ∧
    (mkFakeAlarm p now).comparison_operator = p.comparison_operator ∧
    (mkFakeAlarm p now).evaluation_periods = p.evaluation_periods ∧
    (mkFakeAlarm p now).period = p.period ∧
    (mkFakeAlarm p now).threshold = p.threshold ∧
    (mkFakeAlarm p now).statistic = p.statistic ∧
    (mkFakeAlarm p now).description = p.description ∧
    (mkFakeAlarm p now).dimensions =
      p.dimensions.map (fun d => Dimension.mk d.1 d.2) ∧
    (mkFakeAlarm p now).actions_enabled = p.actions_enabled ∧
    (mkFakeAlarm p now).alarm_actions = p.alarm_actions ∧
    (mkFakeAlarm p now).ok_actions = p.ok_actions ∧
    (mkFakeAlarm p now).insufficient_data_actions = p.insufficient_data_actions ∧
    (mkFakeAlarm p now).unit = p.unit ∧
    (mkFakeAlarm p now).state_value = "OK" ∧
    (mkFakeAlarm p now).state_reason = "" ∧
    (mkFakeAlarm p now).state_reason_data = some "\x7b\x7d" ∧
    (mkFakeAlarm p now).history = [] := by
  refine ⟨?_, rfl, rfl, rfl, rfl, rfl, rfl, rfl, rfl, rfl, rfl, rfl, rfl, rfl,
    rfl, rfl, rfl, rfl, rfl, rfl⟩
  exact get_after_insert m p.name (mkFakeAlarm p now) rfl hkeys hnd

/-- C7 witness: replacing the existing alarm `a1` (which has history and
`ALARM` state) yields exactly the fresh alarm with `OK` state and empty
history. -/
theorem put_then_get_by_names_witness :
    get_alarms_by_alarm_names (put_metric_alarm priorRegistry alarmParamsB 7)
        [alarmParamsB.name] = [mkFakeAlarm alarmParamsB 7] ∧
    (mkFakeAlarm alarmParamsB 7).state_value = "OK" ∧
    (mkFakeAlarm alarmParamsB 7).history = [] := by
  have h := put_then_get_by_names priorRegistry alarmParamsB 7 (by decide)
    (by decide)
  exact ⟨h.1, h.2.2.2.2.2.2.2.2.2.2.2.2.2.2.2.2.1, h.2.2.2.2.2.2.2.2.2.2.2.2.2.2.2.2.2.2.2⟩

/-- Looking up the key just inserted yields the inserted value. -/
theorem lookupD_dictInsert_self {κ α : Type} [DecidableEq κ] (k : κ) (v : α)
    (l : List (κ × α)) : lookupD k (dictInsert k v l) = some v := by
  induction l with
  | nil => simp [dictInsert, lookupD]
  | cons kv rest ih =>
    obtain ⟨k0, v0⟩ := kv
    by_cases hk : k0 = k
    · subst hk; simp [dictInsert, lookupD]
    · simp [dictInsert, lookupD, hk, ih]

/-- Inserting under a different key does not change a lookup. -/
theorem lookupD_dictInsert_ne {κ α : Type} [DecidableEq κ] (k k' : κ) (v : α)
    (l : List (κ × α)) (hne : k' ≠ k) :
    lookupD k (dictInsert k' v l) = lookupD k l := by
  induction l with
  | nil => simp [dictInsert, lookupD, hne]
  | cons kv rest ih =>
    obtain ⟨k0, v0⟩ := kv
    by_cases hk : k0 = k'
    · subst hk; simp [dictInsert, lookupD, hne]
    · simp only [dictInsert, if_neg hk]
      by_cases hk2 : k0 = k
      · subst hk2; simp [lookupD]
      · simp [lookupD, hk2, ih]

/-- After dropping every `vpc-`-prefixed key, looking up a `vpc-`-prefixed
key finds nothing. -/
theorem lookupD_filter_vpc {α : Type} (k : String) (l : List (String × α))
    (hk : strStarts k "vpc-" = true) :
    lookupD k (l.filter (fun kv => !(strStarts kv.1 "vpc-"))) = none := by
  induction l with
  | nil => rfl
  | cons kv rest ih =>
    obtain ⟨k0, v0⟩ := kv
    by_cases h0 : strStarts k0 "vpc-"
    · simpa [List.filter_cons, h0] using ih
    · have : (!(strStarts k0 "vpc-")) = true := by simp [h0]
      simp only [List.filter_cons, this, if_pos]
      have hne : k0 ≠ k := fun hcontra => h0 (hcontra ▸ hk)
      simp [lookupD, hne, ih]

/-- C9: on a gateway already holding an attached entry for `vpc1` (a key
denoting a VPC, i.e. `vpc-`-prefixed), attaching `vpc2` removes the `vpc1`
entry and inserts an `attached` entry for `vpc2`; a subsequent detach of
`vpc2` keeps the `vpc2` entry in the attachment map but flips its state to
`detached`. -/
theorem attach_then_detach_vpn_gateway (vpcExists : String → Bool)
    (gws : List (String × VpnGateway)) (gid vpc1 vpc2 : String)
    (g : VpnGateway) (att1 : VPCGatewayAttachment)
    (hg : lookupD gid gws = some g)
    (hatt1 : lookupD vpc1 g.attachments = some att1)
    (hstate1 : att1.state = some "attached")
    (hvpc1 : strStarts vpc1 "vpc-" = true)
    (hne : vpc1 ≠ vpc2)
    (hex : vpcExists vpc2 = true) :
    ∃ gws1 att g1,
      attach_vpn_gateway vpcExists gws gid vpc2 = Except.ok (gws1, att) ∧
      lookupD gid gws1 = some g1 ∧
      lookupD vpc1 g1.attachments = none ∧
      lookupD vpc2 g1.attachments = some ⟨vpc2, none, some "attached"⟩ ∧
      ∃ gws2 att2 g2,
        detach_vpn_gateway gws1 gid vpc2 = Except.ok (gws2, att2) ∧
        lookupD gid gws2 = some g2 ∧
        lookupD vpc2 g2.attachments = some ⟨vpc2, none, some "detached"⟩ := by
  have hcl : lookupD vpc1 (dropVpcKeys g.attachments) = none :=
    lookupD_filter_vpc vpc1 g.attachments hvpc1
  have hattach : attach_vpn_gateway vpcExists gws gid vpc2 =
      Except.ok
        (dictInsert gid
          (g.withAttachments (dictInsert vpc2 (attachedEntry vpc2)
            (dropVpcKeys g.attachments))) gws,
         attachedEntry vpc2) := by
    simp [attach_vpn_gateway, hg, hex]
  have hgone :
      lookupD vpc1
        (dictInsert vpc2 (attachedEntry vpc2) (dropVpcKeys g.attachments)) = none :=
    (lookupD_dictInsert_ne vpc1 vpc2 _ _ (Ne.symm hne)).trans hcl
  have hg1atts :
      (g.withAttachments (dictInsert vpc2 (attachedEntry vpc2)
        (dropVpcKeys g.attachments))).attachments =
      dictInsert vpc2 (attachedEntry vpc2) (dropVpcKeys g.attachments) := rfl
  have hdetach : detach_vpn_gateway
      (dictInsert gid
        (g.withAttachments (dictInsert vpc2 (attachedEntry vpc2)
          (dropVpcKeys g.attachments))) gws) gid vpc2 =
      Except.ok
        (dictInsert gid
          ((g.withAttachments (dictInsert vpc2 (attachedEntry vpc2)
              (dropVpcKeys g.attachments))).withAttachments
            (dictInsert vpc2 (⟨vpc2, none, some "detached"⟩ : VPCGatewayAttachment)
              (dictInsert vpc2 (attachedEntry vpc2) (dropVpcKeys g.attachments))))
          (dictInsert gid
            (g.withAttachments (dictInsert vpc2 (attachedEntry vpc2)
              (dropVpcKeys g.attachments))) gws),
         (⟨vpc2, none, some "detached"⟩ : VPCGatewayAttachment)) := by
    simp [detach_vpn_gateway, VpnGateway.withAttachments, lookupD_dictInsert_self,
      attachedEntry]
  refine ⟨_, _, _, hattach, lookupD_dictInsert_self _ _ _, ?_, ?_, _, _, _, hdetach,
    lookupD_dictInsert_self _ _ _, lookupD_dictInsert_self _ _ _⟩
  · rw [hg1atts]
    exact hgone
  · rw [hg1atts]
    exact lookupD_dictInsert_self _ _ _

/-- C9 witness: a concrete gateway `vgw1` attached to `vpc-1`; attaching
`vpc-2` and detaching it again behaves as the theorem states. -/
theorem attach_then_detach_vpn_gateway_witness :
    ∃ gws1 att g1,
      attach_vpn_gateway (fun _ => true)
          [("vgw1", ⟨"vgw1", "ipsec.1", none, none, "available",
            [("vpc-1", ⟨"vpc-1", none, some "attached"⟩)]⟩)] "vgw1" "vpc-2" =
        Except.ok (gws1, att) ∧
      lookupD "vgw1" gws1 = some g1 ∧
      lookupD "vpc-1" g1.attachments = none ∧
      lookupD "vpc-2" g1.attachments = some ⟨"vpc-2", none, some "attached"⟩ ∧
      ∃ gws2 att2 g2,
        detach_vpn_gateway gws1 "vgw1" "vpc-2" = Except.ok (gws2, att2) ∧
        lookupD "vgw1" gws2 = some g2 ∧
        lookupD "vpc-2" g2.attachments = some ⟨"vpc-2", none, some "detached"⟩ :=
  attach_then_detach_vpn_gateway (fun _ => true) _ "vgw1" "vpc-1" "vpc-2"
    ⟨"vgw1", "ipsec.1", none, none, "available",
      [("vpc-1", ⟨"vpc-1", none, some "attached"⟩)]⟩
    ⟨"vpc-1", none, some "attached"⟩ (by decide) (by decide) rfl (by decide)
    (by decide) rfl

/-- With no filters supplied, `get_filtered_metrics` returns every stored
point. -/
theorem get_filtered_metrics_no_filters (st : CWState) :
    get_filtered_metrics st none none [] = st.metric_data := by
  simp [get_filtered_metrics, get_all_metrics, aws_metric_data, MetricDatum.filter]

/-- C2: starting with no outstanding tokens and 1200 stored metrics, and
listing with no filters: the first call returns 500 items plus a token; the
second call, presenting that token, returns 500 more plus a new (distinct)
token; the third call, presenting the new token, returns the remaining 200
items and no token; re-presenting the now-consumed second token fails
`PaginationException`. In general, presenting any token that is not
outstanding (unknown or already consumed) fails `PaginationException`. -/
theorem list_metrics_pagination :
    (∀ st : CWState,
      st.paged_metric_data = [] →
      st.metric_data.length = 1200 →
      ∃ st1 t1 page1 st2 t2 page2 st3 page3,
        list_metrics st none none none [] = Except.ok (st1, some t1, page1) ∧
        page1.length = 500 ∧
        list_metrics st1 (some t1) none none [] = Except.ok (st2, some t2, page2) ∧
        page2.length = 500 ∧
        t1 ≠ t2 ∧
        list_metrics st2 (some t2) none none [] = Except.ok (st3, none, page3) ∧
        page3.length = 200 ∧
        list_metrics st3 (some t2) none none [] =
          Except.error CWErr.PaginationException) ∧
    (∀ (st : CWState) (t : Nat) (ns nm : Option String) (dims : List Dimension),
      lookupD t st.paged_metric_data = none →
      list_metrics st (some t) ns nm dims = Except.error CWErr.PaginationException) := by
  constructor
  · intro st hpag hlen
    obtain ⟨ms, pg, n0⟩ := st
    simp only at hpag hlen
    subst hpag
    have hgt1 : 500 < ms.length := by omega
    have hlen7 : (ms.drop 500).length = 700 := by
      simp [List.length_drop, hlen]
    have hgt2 : 500 < (ms.drop 500).length := by omega
    have hlen2 : ((ms.drop 500).drop 500).length = 200 := by
      simp [List.length_drop, hlen]
    have hngt3 : ¬(500 < ((ms.drop 500).drop 500).length) := by omega
    refine ⟨⟨ms, [(n0, ms.drop 500)], n0 + 1⟩, n0, ms.take 500,
      ⟨ms, [(n0 + 1, (ms.drop 500).drop 500)], n0 + 2⟩, n0 + 1,
      (ms.drop 500).take 500,
      ⟨ms, [], n0 + 2⟩, (ms.drop 500).drop 500,
      ?_, ?_, ?_, ?_, ?_, ?_, ?_, ?_⟩
    · rw [list_metrics, get_filtered_metrics_no_filters]
      simp [get_paginated, hgt1, dictInsert]
    · simp [List.length_take, hlen]
    · simp only [list_metrics, lookupD, eraseKey, get_paginated, hgt2, dictInsert]
      simp
      omega
    · simp [List.length_take, hlen7]
    · omega
    · simp only [list_metrics, lookupD, eraseKey, get_paginated, hngt3]
      simp
      omega
    · exact hlen2
    · simp [list_metrics, lookupD]
  · intro st t ns nm dims hlook
    simp [list_metrics, hlook]

/-- C2 witness: the concrete three-call flow over 1200 identical stored
points, plus the failure of an unknown token on an empty token table. -/
theorem list_metrics_pagination_witness :
    (∃ st1 t1 page1 st2 t2 page2 st3 page3,
      list_metrics ⟨manyMetrics, [], 0⟩ none none none [] =
        Except.ok (st1, some t1, page1) ∧
      page1.length = 500 ∧
      list_metrics st1 (some t1) none none [] = Except.ok (st2, some t2, page2) ∧
      page2.length = 500 ∧
      t1 ≠ t2 ∧
      list_metrics st2 (some t2) none none [] = Except.ok (st3, none, page3) ∧
      page3.length = 200 ∧
      list_metrics st3 (some t2) none none [] =
        Except.error CWErr.PaginationException) ∧
    list_metrics ⟨manyMetrics, [], 0⟩ (some 41) none none [] =
      Except.error CWErr.PaginationException := by
  constructor
  · exact list_metrics_pagination.1 ⟨manyMetrics, [], 0⟩ rfl
      (by simp only [manyMetrics, List.length_replicate])
  · exact list_metrics_pagination.2 ⟨manyMetrics, [], 0⟩ 41 none none [] rfl


/-- Every element yielded by `daterange` lies on the step grid and below the
stop bound. -/
theorem daterange_mem (start stop step : Int) :
    ∀ dt ∈ daterange start stop step, ∃ k : Nat, dt = start + k * step ∧ dt < stop := by
  induction start, stop, step using daterange.induct with
  | case1 start stop step h ih =>
    rw [daterange, dif_pos h]
    intro dt hdt
    rcases List.mem_cons.mp hdt with heq | htail
    · exact ⟨0, by simpa using heq, heq ▸ h.2⟩
    · obtain ⟨k, hk, hlt⟩ := ih dt htail
      refine ⟨k + 1, ?_, hlt⟩
      rw [hk]
      push_cast
      ring
  | case2 start stop step h =>
    rw [daterange, dif_neg h]
    intro dt hdt
    simp at hdt

/-- With a positive step, `daterange` yields strictly increasing instants. -/
theorem daterange_pairwise (start stop step : Int) (hstep : 0 < step) :
    List.Pairwise (fun a b => a < b) (daterange start stop step) := by
  induction start, stop, step using daterange.induct with
  | case1 start stop step h ih =>
    rw [daterange, dif_pos h]
    refine List.pairwise_cons.mpr ⟨?_, ih h.1⟩
    intro x hx
    obtain ⟨k, hk, _⟩ := daterange_mem _ _ _ x hx
    have : (0 : Int) ≤ (k : Int) * step :=
      mul_nonneg (Int.natCast_nonneg k) (le_of_lt h.1)
    omega
  | case2 start stop step h =>
    rw [daterange, dif_neg h]
    exact List.Pairwise.nil

/-- On a timestamp-sorted list, every point surviving a
drop-while-below-`c` has timestamp at least `c`. -/
theorem dropWhile_lt_ge (c : Int) (l : List MetricDatum)
    (hs : List.Pairwise tsLE l) :
    ∀ p ∈ l.dropWhile (fun md => decide (md.timestamp < c)), c ≤ p.timestamp := by
  induction l with
  | nil => intro p hp; simp at hp
  | cons a t ih =>
    rcases List.pairwise_cons.mp hs with ⟨ha, ht⟩
    by_cases hac : a.timestamp < c
    · rw [List.dropWhile_cons_of_pos (by simpa using hac)]
      exact ih ht
    · rw [List.dropWhile_cons_of_neg (by simpa using hac)]
      intro p hp
      rcases List.mem_cons.mp hp with rfl | hpt
      · omega
      · have := ha p hpt
        unfold tsLE at this
        omega

/-- On a timestamp-sorted list, taking the leading points below `c` is the
same as filtering for points below `c`. -/
theorem takeWhile_lt_eq_filter (c : Int) (l : List MetricDatum)
    (hs : List.Pairwise tsLE l) :
    l.takeWhile (fun md => decide (md.timestamp < c)) =
      l.filter (fun md => decide (md.timestamp < c)) := by
  induction l with
  | nil => rfl
  | cons a t ih =>
    rcases List.pairwise_cons.mp hs with ⟨ha, ht⟩
    by_cases hac : a.timestamp < c
    · rw [List.takeWhile_cons_of_pos (by simpa using hac),
        List.filter_cons_of_pos (by simpa using hac), ih ht]
    · rw [List.takeWhile_cons_of_neg (by simpa using hac),
        List.filter_cons_of_neg (by simpa using hac)]
      symm
      rw [List.filter_eq_nil_iff]
      intro p hpt
      have := ha p hpt
      unfold tsLE at this
      simp
      omega

/-- On a timestamp-sorted list, the last element has the greatest
timestamp. -/
theorem getLast?_ts_ge (l : List MetricDatum) (hs : List.Pairwise tsLE l) :
    ∀ p ∈ l, ∀ x, l.getLast? = some x → p.timestamp ≤ x.timestamp := by
  induction l with
  | nil => intro p hp; simp at hp
  | cons a t ih =>
    rcases List.pairwise_cons.mp hs with ⟨ha, ht⟩
    intro p hp x hx
    cases t with
    | nil =>
      rw [List.getLast?_singleton] at hx
      rw [List.mem_singleton] at hp
      subst hp
      injection hx with hx
      subst hx
      exact le_refl _
    | cons b t2 =>
      rw [List.getLast?_cons_cons] at hx
      rcases List.mem_cons.mp hp with rfl | hpt
      · have hab : tsLE p b := ha b (List.mem_cons_self b t2)
        have hbx := ih ht b (List.mem_cons_self b t2) x hx
        unfold tsLE at hab
        omega
      · exact ih ht p hpt x hx

/-- The window starts of the emitted windows form a sublist of the candidate
window starts. -/
theorem collectWindows_ts_sublist (dts : List Int) (pts : List MetricDatum)
    (period : Int) (stats : List String) :
    ((collectWindows dts pts period stats).map Statistics.timestamp).Sublist dts := by
  induction dts generalizing pts with
  | nil => simp [collectWindows]
  | cons dt rest ih =>
    rw [collectWindows]
    by_cases he : (pts.takeWhile (fun md => md.timestamp < dt + period)).isEmpty
    · rw [if_pos he]
      exact (ih _).cons dt
    · rw [if_neg he]
      simpa using (ih _).cons₂ dt


/-- Invariant of the window loop over a `daterange` grid: on a sorted point
list bounded by `[start, stop)`, the emitted windows exactly partition the
points (their values concatenate to the full value list), every emitted
window is non-empty, holds exactly the points of its half-open
`[w.timestamp, w.timestamp + period)` interval, and starts on the grid
`start + k * period`. -/
theorem collectWindows_spec :
    ∀ (start stop period : Int) (stats : List String) (pts : List MetricDatum),
      0 < period →
      List.Pairwise tsLE pts →
      (∀ p ∈ pts, start ≤ p.timestamp ∧ p.timestamp < stop) →
      (((collectWindows (daterange start stop period) pts period stats).map
          Statistics.values).flatten = pts.map MetricDatum.value) ∧
      (∀ w ∈ collectWindows (daterange start stop period) pts period stats,
        w.values ≠ [] ∧
        w.values = (pts.filter (fun p => decide (w.timestamp ≤ p.timestamp) &&
          decide (p.timestamp < w.timestamp + period))).map MetricDatum.value ∧
        ∃ k : Nat, w.timestamp = start + k * period) := by
  intro start stop period
  induction start, stop, period using daterange.induct with
  | case2 start stop step h2 =>
    intro stats pts hper hsort hbnd
    have hss : ¬ start < stop := fun hlt => h2 ⟨hper, hlt⟩
    have hpts : pts = [] := by
      cases pts with
      | nil => rfl
      | cons p t =>
        exfalso
        have := hbnd p (List.mem_cons_self p t)
        omega
    subst hpts
    rw [daterange, dif_neg h2]
    exact ⟨by simp [collectWindows], by simp [collectWindows]⟩
  | case1 start stop step h ih =>
    intro stats pts hper hsort hbnd
    rw [daterange, dif_pos h]
    have htdr : pts.takeWhile (fun md => decide (md.timestamp < start + step)) ++
        pts.dropWhile (fun md => decide (md.timestamp < start + step)) = pts :=
      List.takeWhile_append_dropWhile _ _
    have hremsub : (pts.dropWhile (fun md => decide (md.timestamp < start + step))).Sublist
        pts := List.dropWhile_sublist _
    have hremsort : List.Pairwise tsLE
        (pts.dropWhile (fun md => decide (md.timestamp < start + step))) :=
      hsort.sublist hremsub
    have hremge := dropWhile_lt_ge (start + step) pts hsort
    have hrembnd : ∀ p ∈ pts.dropWhile (fun md => decide (md.timestamp < start + step)),
        start + step ≤ p.timestamp ∧ p.timestamp < stop :=
      fun p hp => ⟨hremge p hp, (hbnd p (hremsub.subset hp)).2⟩
    have IH := ih stats _ h.1 hremsort hrembnd
    rw [collectWindows]
    by_cases he :
        (pts.takeWhile (fun md => decide (md.timestamp < start + step))).isEmpty
    · have htk : pts.takeWhile (fun md => decide (md.timestamp < start + step)) = [] :=
        List.isEmpty_iff.mp he
      have hrem : pts.dropWhile (fun md => decide (md.timestamp < start + step)) = pts := by
        rw [htk] at htdr
        simpa using htdr
      rw [if_pos he]
      constructor
      · rw [IH.1, hrem]
      · intro w hw
        obtain ⟨hne, hfil, k, hk⟩ := IH.2 w hw
        refine ⟨hne, ?_, k + 1, ?_⟩
        · rw [hfil, hrem]
        · rw [hk]
          push_cast
          ring
    · rw [if_neg he]
      have htkne : pts.takeWhile (fun md => decide (md.timestamp < start + step)) ≠ [] :=
        fun hcontra => he (by rw [hcontra]; rfl)
      constructor
      · simp only [List.map_cons, List.flatten_cons]
        rw [IH.1, ← List.map_append, htdr]
      · intro w hw
        rcases List.mem_cons.mp hw with rfl | htail
        · refine ⟨by simpa using htkne, ?_, 0, by simp⟩
          have h1 : pts.filter (fun p => decide (start ≤ p.timestamp) &&
                decide (p.timestamp < start + step)) =
              pts.filter (fun p => decide (p.timestamp < start + step)) :=
            List.filter_congr (fun p hp => by simp [(hbnd p hp).1])
          have h2 := takeWhile_lt_eq_filter (start + step) pts hsort
          simp only []
          rw [h2, ← h1]
        · obtain ⟨hne, hfil, k, hk⟩ := IH.2 w htail
          refine ⟨hne, ?_, k + 1, ?_⟩
          · have hwge : start + step ≤ w.timestamp := by
              rw [hk]
              have : (0 : Int) ≤ (k : Int) * step :=
                mul_nonneg (Int.natCast_nonneg k) (le_of_lt h.1)
              omega
            have htf : (pts.takeWhile (fun md => decide (md.timestamp < start + step))).filter
                (fun p => decide (w.timestamp ≤ p.timestamp) &&
                  decide (p.timestamp < w.timestamp + step)) = [] := by
              rw [List.filter_eq_nil_iff]
              intro p hp
              have hplt : p.timestamp < start + step := by
                have := List.mem_takeWhile_imp hp
                simpa using this
              simp
              intro hle
              omega
            rw [hfil]
            conv_rhs => rw [← htdr]
            rw [List.filter_append, htf, List.nil_append]
          · rw [hk]
            push_cast
            ring


/-- The sorted matching data is sorted by timestamp. -/
theorem sortedMatching_pairwise (data : List MetricDatum) (ns nm : String)
    (s e : Int) : List.Pairwise tsLE (sortedMatching data ns nm s e) :=
  List.sorted_insertionSort tsLE (matchingData data ns nm s e)

/-- Sorting permutes the matching data. -/
theorem sortedMatching_perm (data : List MetricDatum) (ns nm : String)
    (s e : Int) :
    (sortedMatching data ns nm s e).Perm (matchingData data ns nm s e) :=
  List.perm_insertionSort tsLE (matchingData data ns nm s e)

/-- C4: for every `get_metric_statistics` call with positive period, every
output window has at least one assigned point (so `sample_count` is at
least 1 when SampleCount is requested), each window holds exactly the
matching points of its half-open width-`period` interval, window starts lie
on the grid anchored at the earliest matching timestamp, the windows are
strictly chronologically ascending, and the first output window starts at
the earliest matching timestamp. -/
theorem get_metric_statistics_windows (data : List MetricDatum) (ns nm : String)
    (start_time end_time period : Int) (stats : List String) (hper : 0 < period) :
    (∀ w ∈ get_metric_statistics data ns nm start_time end_time period stats,
      w.values ≠ [] ∧
      ("SampleCount" ∈ stats →
        w.sample_count = some w.values.length ∧ 1 ≤ w.values.length) ∧
      w.values = ((sortedMatching data ns nm start_time end_time).filter
        (fun p => decide (w.timestamp ≤ p.timestamp) &&
          decide (p.timestamp < w.timestamp + period))).map MetricDatum.value ∧
      (∃ first, (sortedMatching data ns nm start_time end_time).head? = some first ∧
        ∃ k : Nat, w.timestamp = first.timestamp + k * period)) ∧
    List.Pairwise (fun a b => a.timestamp < b.timestamp)
      (get_metric_statistics data ns nm start_time end_time period stats) ∧
    ((get_metric_statistics data ns nm start_time end_time period stats).head?.map
        Statistics.timestamp =
      (sortedMatching data ns nm start_time end_time).head?.map
        MetricDatum.timestamp) := by
  cases hs : sortedMatching data ns nm start_time end_time with
  | nil =>
    rw [get_metric_statistics, hs]
    exact ⟨by intro w hw; simp at hw, List.Pairwise.nil, rfl⟩
  | cons first rest =>
    have hsort : List.Pairwise tsLE (first :: rest) :=
      hs ▸ sortedMatching_pairwise data ns nm start_time end_time
    obtain ⟨x, hx⟩ : ∃ x, (first :: rest).getLast? = some x :=
      Option.isSome_iff_exists.mp
        (List.getLast?_isSome.mpr (List.cons_ne_nil first rest))
    have hlast : ((first :: rest).getLast?).getD first = x := by rw [hx]; rfl
    have hbnd : ∀ p ∈ first :: rest,
        first.timestamp ≤ p.timestamp ∧
        p.timestamp < (((first :: rest).getLast?).getD first).timestamp + period := by
      intro p hp
      constructor
      · rcases List.mem_cons.mp hp with rfl | hpt
        · exact le_refl _
        · exact (List.pairwise_cons.mp hsort).1 p hpt
      · have := getLast?_ts_ge (first :: rest) hsort p hp x hx
        rw [hlast]
        omega
    have happ := collectWindows_spec first.timestamp
      ((((first :: rest).getLast?).getD first).timestamp + period) period stats
      (first :: rest) hper hsort hbnd
    have hget : get_metric_statistics data ns nm start_time end_time period stats =
        collectWindows
          (daterange first.timestamp
            ((((first :: rest).getLast?).getD first).timestamp + period) period)
          (first :: rest) period stats := by
      rw [get_metric_statistics, hs]
    refine ⟨?_, ?_, ?_⟩
    · intro w hw
      rw [hget] at hw
      obtain ⟨hne, hfil, k, hk⟩ := happ.2 w hw
      have hstats : w.stats = stats := collectWindows_stats_eq _ _ _ _ w hw
      refine ⟨hne, fun hin => ⟨?_, ?_⟩, hfil, first, rfl, k, hk⟩
      · simp [Statistics.sample_count, hstats, hin]
      · have := List.length_pos.mpr hne
        omega
    · rw [hget]
      have hsub := collectWindows_ts_sublist
        (daterange first.timestamp
          ((((first :: rest).getLast?).getD first).timestamp + period) period)
        (first :: rest) period stats
      have hpw := daterange_pairwise first.timestamp
        ((((first :: rest).getLast?).getD first).timestamp + period) period hper
      have := hpw.sublist hsub
      exact (List.pairwise_map.mp this)
    · have hflt : first.timestamp <
          (((first :: rest).getLast?).getD first).timestamp + period :=
        (hbnd first (List.mem_cons_self first rest)).2
      have hdr : daterange first.timestamp
          ((((first :: rest).getLast?).getD first).timestamp + period) period =
          first.timestamp :: daterange (first.timestamp + period)
            ((((first :: rest).getLast?).getD first).timestamp + period) period := by
        rw [daterange, dif_pos ⟨hper, hflt⟩]
      rw [hget, hdr, collectWindows]
      rw [List.takeWhile_cons_of_pos (by simp; omega)]
      simp

/-- C8: the points aggregated by `get_metric_statistics` are exactly the
stored points whose namespace and name match and whose timestamp lies in
`[start_time, end_time]`, inclusive at both ends: membership in the
filtering step is characterised by those three conditions, the values
aggregated across all windows are a permutation of the matching points'
values, and when nothing matches the result is empty. -/
theorem get_metric_statistics_points (data : List MetricDatum) (ns nm : String)
    (s e period : Int) (stats : List String) (hper : 0 < period) :
    (∀ md, md ∈ matchingData data ns nm s e ↔
      md ∈ data ∧ md.nspace = ns ∧ md.name = nm ∧
      s ≤ md.timestamp ∧ md.timestamp ≤ e) ∧
    ((get_metric_statistics data ns nm s e period stats).map
        Statistics.values).flatten.Perm
      ((matchingData data ns nm s e).map MetricDatum.value) ∧
    (matchingData data ns nm s e = [] →
      get_metric_statistics data ns nm s e period stats = []) := by
  refine ⟨?_, ?_, ?_⟩
  · intro md
    simp [matchingData, List.mem_filter, and_assoc]
  · cases hs : sortedMatching data ns nm s e with
    | nil =>
      have hp := sortedMatching_perm data ns nm s e
      rw [hs] at hp
      have hm : matchingData data ns nm s e = [] := hp.symm.eq_nil
      rw [get_metric_statistics, hs, hm]
      simp
    | cons first rest =>
      have hsort : List.Pairwise tsLE (first :: rest) :=
        hs ▸ sortedMatching_pairwise data ns nm s e
      obtain ⟨x, hx⟩ : ∃ x, (first :: rest).getLast? = some x :=
        Option.isSome_iff_exists.mp
          (List.getLast?_isSome.mpr (List.cons_ne_nil first rest))
      have hlast : ((first :: rest).getLast?).getD first = x := by rw [hx]; rfl
      have hbnd : ∀ p ∈ first :: rest,
          first.timestamp ≤ p.timestamp ∧
          p.timestamp < (((first :: rest).getLast?).getD first).timestamp + period := by
        intro p hp
        constructor
        · rcases List.mem_cons.mp hp with rfl | hpt
          · exact le_refl _
          · exact (List.pairwise_cons.mp hsort).1 p hpt
        · have := getLast?_ts_ge (first :: rest) hsort p hp x hx
          rw [hlast]
          omega
      have happ := collectWindows_spec first.timestamp
        ((((first :: rest).getLast?).getD first).timestamp + period) period stats
        (first :: rest) hper hsort hbnd
      rw [get_metric_statistics, hs, happ.1]
      exact (hs ▸ sortedMatching_perm data ns nm s e).map MetricDatum.value
  · intro hm
    rw [get_metric_statistics]
    have : sortedMatching data ns nm s e = [] := by
      rw [sortedMatching, hm]
      rfl
    rw [this]

/-- C4 witness: the window properties at the concrete four-point scenario —
windows strictly ascending and the first window starting at the earliest
matching timestamp. -/
theorem get_metric_statistics_windows_witness :
    List.Pairwise (fun a b => a.timestamp < b.timestamp)
      (get_metric_statistics exampleStatsData "N" "M" 0 200 60
        ["SampleCount", "Sum"]) ∧
    ((get_metric_statistics exampleStatsData "N" "M" 0 200 60
        ["SampleCount", "Sum"]).head?.map Statistics.timestamp =
      (sortedMatching exampleStatsData "N" "M" 0 200).head?.map
        MetricDatum.timestamp) :=
  ⟨(get_metric_statistics_windows exampleStatsData "N" "M" 0 200 60
      ["SampleCount", "Sum"] (by decide)).2.1,
   (get_metric_statistics_windows exampleStatsData "N" "M" 0 200 60
      ["SampleCount", "Sum"] (by decide)).2.2⟩

/-- C8 witness: at the concrete four-point scenario, the values aggregated
across all windows are a permutation of the values of the matching stored
points. -/
theorem get_metric_statistics_points_witness :
    ((get_metric_statistics exampleStatsData "N" "M" 0 200 60 ["Sum"]).map
        Statistics.values).flatten.Perm
      ((matchingData exampleStatsData "N" "M" 0 200).map MetricDatum.value) :=
  (get_metric_statistics_points exampleStatsData "N" "M" 0 200 60 ["Sum"]
    (by decide)).2.1

end Moto
